import Mathlib

/-!
Verification development for the YouTube data collector
(`src/youtube_data_collector.py`).

The program is a linear ETL pipeline: paginated search for video ids,
batched detail retrieval enriched with per-video transcripts, CSV export.
External collaborators (the search endpoint, the details endpoint, the
transcript service) are modelled as explicit oracle parameters; machine
effects that the claims talk about (the inter-batch delay, the issued
collaborator calls) are reified as an event trace returned alongside the
data.
-/

namespace YTCollector

/-! ## Transcript fetcher (`get_video_captions`, lines 81-99)

The transcript collaborator exposes, per video id, a listing of transcript
tracks (`YouTubeTranscriptApi.list_transcripts`, which may fail), a lookup
of a track by a list of language codes (`find_transcript`, may fail), and a
lookup of a manually created track taking no language argument
(`find_manually_created_transcript`, may fail).  Fetching a resolved track
yields caption entries; each entry is a loosely-shaped record whose "text"
field may be absent, modelled as `Option String` (an absent field makes the
comprehension `entry["text"]` raise, i.e. parsing fails). -/

/-- A resolved transcript track: `fetch()` either fails or returns the
caption entries, each entry being the optional "text" field. -/
structure Transcript where
  fetchResult : Except Unit (List (Option String))

/-- The track listing returned by `list_transcripts`: lookup by language
codes, and lookup of a manually created track (no language argument). -/
structure TranscriptList where
  find_transcript : List String → Except Unit Transcript
  find_manually_created_transcript : Except Unit Transcript

/-- Extract the "text" field of every caption entry; fails (returns `none`)
as soon as one entry lacks the field, as `entry["text"]` would raise. -/
def extractTexts (entries : List (Option String)) : Option (List String) :=
  entries.mapM (fun o => o)

/-- The inner `try/except` of `get_video_captions` (lines 88-92): try the
English track first, and only if that lookup fails fall back to
`find_manually_created_transcript()`, called without any language. -/
def resolveTranscript (tl : TranscriptList) : Except Unit Transcript :=
  match tl.find_transcript ["en"] with
  | Except.ok t => Except.ok t
  | Except.error _ => tl.find_manually_created_transcript

/-- `get_video_captions` (lines 81-99): list the transcripts for the video,
resolve a track (English preferred, manually-created fallback), fetch it and
join all caption texts with single spaces.  Every failure at any step is
absorbed by the outer `except` and yields `(false, "")`. -/
def get_video_captions (listTranscripts : String → Except Unit TranscriptList)
    (videoId : String) : Bool × String :=
  match listTranscripts videoId with
  | Except.error _ => (false, "")
  | Except.ok tl =>
    match resolveTranscript tl with
    | Except.error _ => (false, "")
    | Except.ok t =>
      match t.fetchResult with
      | Except.error _ => (false, "")
      | Except.ok entries =>
        match extractTexts entries with
        | none => (false, "")
        | some texts => (true, String.intercalate " " texts)

end YTCollector

namespace YTCollector

/-- Claim C6: `get_video_captions` is total toward its caller (its Lean
embedding is a total function into `Bool × String`, mirroring the outer
`except` that absorbs every exception), and whenever any step fails — the
track listing fails, both the English lookup and the manually-created
fallback fail, the fetch fails, or a caption entry lacks its text field —
the result is `(false, "")`. -/
theorem c6_captions_fail_soft (listT : String → Except Unit TranscriptList)
    (videoId : String) :
    (listT videoId = Except.error () →
      get_video_captions listT videoId = (false, "")) ∧
    (∀ tl, listT videoId = Except.ok tl →
      tl.find_transcript ["en"] = Except.error () →
      tl.find_manually_created_transcript = Except.error () →
      get_video_captions listT videoId = (false, "")) ∧
    (∀ tl t, listT videoId = Except.ok tl →
      resolveTranscript tl = Except.ok t →
      t.fetchResult = Except.error () →
      get_video_captions listT videoId = (false, "")) ∧
    (∀ tl t entries, listT videoId = Except.ok tl →
      resolveTranscript tl = Except.ok t →
      t.fetchResult = Except.ok entries →
      extractTexts entries = none →
      get_video_captions listT videoId = (false, "")) := by
  refine ⟨?_, ?_, ?_, ?_⟩
  · intro h
    simp [get_video_captions, h]
  · intro tl h h1 h2
    simp [get_video_captions, h, resolveTranscript, h1, h2]
  · intro tl t h h1 h2
    simp [get_video_captions, h, h1, h2]
  · intro tl t entries h h1 h2 h3
    simp [get_video_captions, h, h1, h2, h3]

/-- Witness for C6 at a concrete failing collaborator. -/
theorem c6_captions_fail_soft_witness :
    get_video_captions (fun _ => Except.error ()) "abc" = (false, "") :=
  (c6_captions_fail_soft (fun _ => Except.error ()) "abc").1 rfl

/-- Claim C10: the track resolution of `get_video_captions` first attempts
specifically the English ("en") transcript, and only if that lookup fails
does it fall back to the manually-created transcript lookup, which takes no
language argument: when the English lookup succeeds its result is used (the
fallback field is never consulted), and when it fails the result is exactly
`find_manually_created_transcript`. -/
theorem c10_english_first_manual_fallback (tl : TranscriptList) :
    (∀ t, tl.find_transcript ["en"] = Except.ok t →
      resolveTranscript tl = Except.ok t) ∧
    (tl.find_transcript ["en"] = Except.error () →
      resolveTranscript tl = tl.find_manually_created_transcript) := by
  constructor
  · intro t h
    simp [resolveTranscript, h]
  · intro h
    simp [resolveTranscript, h]

/-- Witness for C10 at a concrete track listing. -/
theorem c10_english_first_manual_fallback_witness :
    resolveTranscript
      ⟨fun _ => Except.ok ⟨Except.ok []⟩, Except.error ()⟩ =
      Except.ok ⟨Except.ok []⟩ :=
  (c10_english_first_manual_fallback
    ⟨fun _ => Except.ok ⟨Except.ok []⟩, Except.error ()⟩).1 _ rfl

end YTCollector

namespace YTCollector

/-! ## Search paginator (`search_videos_by_genre`, lines 23-79)

The search collaborator is an oracle taking the index of the call (calls
are issued strictly in sequence), the requested page size
`min(50, max_results - len(video_ids))`, and the page token passed
(`None` on the first call).  A response either raises `HttpError`, lacks
the "items" key, or carries a list of video ids together with
`response.get("nextPageToken")`.  The `while` loop has no intrinsic
termination guarantee (a collaborator may forever return empty pages with
fresh cursors), so the embedding takes a fuel bound that is irrelevant on
every terminating path.  The issued calls are reified in the second
component of the result as `(requested page size, page token)` pairs. -/

/-- One response of the search collaborator: an HTTP error, a response
without an "items" key, or a page of video ids plus the optional
`nextPageToken`. -/
inductive SearchResult where
  | httpError : SearchResult
  | noItems : SearchResult
  | page : List String → Option String → SearchResult

/-- Python truthiness of the `next_page_token` in `if not next_page_token`:
both an absent token and an empty-string token are falsy. -/
def tokenFalsy : Option String → Bool
  | none => true
  | some s => s.length == 0

/-- The `while len(video_ids) < max_results` loop of
`search_videos_by_genre` (lines 36-71).  State: accumulated ids and the
current page token; `callIdx` counts issued calls.  Per iteration: request
`min 50 (maxResults - len)` results; on `HttpError` or a response without
"items", break; otherwise append the page's ids, break if the target is
reached, set the token to the response's `nextPageToken` and break if it is
falsy. -/
def searchLoop (search : Nat → Int → Option String → SearchResult)
    (maxResults : Int) :
    Nat → Nat → List String → Option String →
      List String × List (Int × Option String)
  | fuel, callIdx, acc, tok =>
    if (acc.length : Int) < maxResults then
      match fuel with
      | 0 => (acc, [])
      | fuel' + 1 =>
        let req : Int := min 50 (maxResults - (acc.length : Int))
        match search callIdx req tok with
        | SearchResult.httpError => (acc, [(req, tok)])
        | SearchResult.noItems => (acc, [(req, tok)])
        | SearchResult.page ids next =>
          let acc' := acc ++ ids
          if maxResults ≤ (acc'.length : Int) then (acc', [(req, tok)])
          else if tokenFalsy next then (acc', [(req, tok)])
          else
            let r := searchLoop search maxResults fuel' (callIdx + 1) acc' next
            (r.1, (req, tok) :: r.2)
    else (acc, [])

/-- `search_videos_by_genre` (lines 23-79): run the pagination loop from an
empty accumulator and no page token, returning the collected video ids and
the trace of issued search calls. -/
def search_videos_by_genre (search : Nat → Int → Option String → SearchResult)
    (maxResults : Int) (fuel : Nat) :
    List String × List (Int × Option String) :=
  searchLoop search maxResults fuel 0 [] none

/-- Claim C5: for every collaborator and every `maxResults ≤ 0`,
`search_videos_by_genre` returns the empty sequence and issues no search
call (the loop guard `len(video_ids) < max_results` fails immediately). -/
theorem c5_nonpositive_max_no_calls
    (search : Nat → Int → Option String → SearchResult)
    (maxResults : Int) (fuel : Nat) (h : maxResults ≤ 0) :
    search_videos_by_genre search maxResults fuel = ([], []) := by
  have hguard : ¬ ((List.length ([] : List String) : Int) < maxResults) := by
    simp only [List.length_nil, Int.natCast_zero]
    omega
  unfold search_videos_by_genre searchLoop
  rw [if_neg hguard]

/-- Witness for C5 at `maxResults = -3`. -/
theorem c5_nonpositive_max_no_calls_witness :
    search_videos_by_genre (fun _ _ _ => SearchResult.noItems) (-3) 10 =
      ([], []) :=
  c5_nonpositive_max_no_calls (fun _ _ _ => SearchResult.noItems) (-3) 10
    (by decide)

/-- Claim C4: for every positive `maxResults`, if the collaborator's first
page response carries no next-page cursor then `search_videos_by_genre`
issues exactly one search call and terminates, returning exactly the
identifiers of that first page. -/
theorem c4_no_cursor_single_page
    (search : Nat → Int → Option String → SearchResult)
    (maxResults : Int) (fuel : Nat) (ids0 : List String)
    (hmax : 0 < maxResults) (hfuel : 0 < fuel)
    (hfirst : search 0 (min 50 maxResults) none = SearchResult.page ids0 none) :
    search_videos_by_genre search maxResults fuel =
      (ids0, [(min 50 maxResults, (none : Option String))]) := by
  obtain ⟨fuel', rfl⟩ : ∃ f, fuel = f + 1 := ⟨fuel - 1, by omega⟩
  unfold search_videos_by_genre searchLoop
  have hguard : ((List.length ([] : List String) : Int) < maxResults) := by
    simpa using hmax
  rw [if_pos hguard]
  simp only [List.length_nil, Int.natCast_zero, Int.sub_zero]
  rw [hfirst]
  simp only [List.nil_append, tokenFalsy]
  by_cases hfull : maxResults ≤ (ids0.length : Int)
  · rw [if_pos hfull]
  · rw [if_neg hfull]
    simp

/-- Witness for C4: a collaborator whose first response is a one-id page
with no cursor, at `maxResults = 7`. -/
theorem c4_no_cursor_single_page_witness :
    search_videos_by_genre
      (fun _ _ _ => SearchResult.page ["v1"] none) 7 5 =
      (["v1"], [((7 : Int), (none : Option String))]) := by
  have h := c4_no_cursor_single_page
    (fun _ _ _ => SearchResult.page ["v1"] none) 7 5 ["v1"]
    (by decide) (by decide) rfl
  simpa using h

/-! ### Claim C3: fully successful pagination

The claim's hypotheses — every page call succeeds and each page returns
exactly the requested number of items up to what remains available — are
modelled by a collaborator serving pages out of a fixed finite `pool` of
ids, returning a next-page cursor exactly while some of the pool remains.
The cursor encodes the serving position as the token's length (the cursor
is an opaque token; any injective encoding is equivalent). -/

/-- Serving position encoded by a page token: absent token means position
0, otherwise the token's length. -/
def poolPos : Option String → Nat
  | none => 0
  | some s => s.length

/-- The cursor the pool collaborator hands out for position `pos`. -/
def poolTok (pos : Nat) : Option String :=
  some (String.mk (List.replicate pos 'x'))

/-- A search collaborator with a fixed pool of available ids: every call
succeeds, serves exactly `min(requested, remaining)` ids, and returns a
cursor exactly when ids remain after the page. -/
def poolSearch (pool : List String) :
    Nat → Int → Option String → SearchResult :=
  fun _ req tok =>
    let pos := poolPos tok
    let served := (pool.drop pos).take req.toNat
    let newpos := pos + served.length
    SearchResult.page served
      (if newpos < pool.length then poolTok newpos else none)

theorem length_mkString (l : List Char) : (String.mk l).length = l.length :=
  rfl

theorem poolPos_poolTok (p : Nat) : poolPos (poolTok p) = p := by
  simp [poolPos, poolTok, length_mkString]

theorem tokenFalsy_poolTok (p : Nat) (hp : 0 < p) :
    tokenFalsy (poolTok p) = false := by
  simp [tokenFalsy, poolTok, length_mkString]
  omega

/-- Invariant lemma for C3: running the pagination loop against the pool
collaborator from a state whose token encodes the number of ids already
accumulated yields `min maxResults.toNat pool.length` ids whenever the
loop guard admits entry (and leaves the accumulator alone otherwise),
given enough fuel to reach the end of the pool. -/
theorem searchLoop_poolSearch_length (pool : List String) (max : Int) :
    ∀ (fuel : Nat) (acc : List String) (tok : Option String) (callIdx : Nat),
      poolPos tok = acc.length → acc.length ≤ pool.length →
      pool.length - acc.length < fuel →
      (searchLoop (poolSearch pool) max fuel callIdx acc tok).1.length =
        if (acc.length : Int) < max then min max.toNat pool.length
        else acc.length := by
  intro fuel
  induction fuel with
  | zero =>
    intro acc tok callIdx _ _ hfuel
    omega
  | succ fuel ih =>
    intro acc tok callIdx htok hacc hfuel
    by_cases hguard : (acc.length : Int) < max
    · rw [if_pos hguard]
      unfold searchLoop
      rw [if_pos hguard]
      simp only [poolSearch, htok]
      have hm1 : (1 : Int) ≤ min 50 (max - (acc.length : Int)) :=
        le_min (by norm_num) (by omega)
      have hmle : min (50 : Int) (max - (acc.length : Int)) ≤
          max - (acc.length : Int) := min_le_right _ _
      have hslen :
          ((pool.drop acc.length).take
            (min 50 (max - (acc.length : Int))).toNat).length =
          min (min 50 (max - (acc.length : Int))).toNat
            (pool.length - acc.length) := by
        simp [List.length_take, List.length_drop]
      by_cases hfull :
          max ≤ ((acc ++ (pool.drop acc.length).take
            (min 50 (max - (acc.length : Int))).toNat).length : Int)
      · rw [if_pos hfull]
        simp only [List.length_append] at hfull ⊢
        omega
      · rw [if_neg hfull]
        simp only [List.length_append] at hfull ⊢
        by_cases hnp : acc.length + ((pool.drop acc.length).take
            (min 50 (max - (acc.length : Int))).toNat).length < pool.length
        · rw [if_pos hnp]
          have hpos : 0 < acc.length + ((pool.drop acc.length).take
              (min 50 (max - (acc.length : Int))).toNat).length := by
            omega
          rw [tokenFalsy_poolTok _ hpos]
          simp only [Bool.false_eq_true, if_false]
          have hrec := ih
            (acc ++ (pool.drop acc.length).take
              (min 50 (max - (acc.length : Int))).toNat)
            (poolTok (acc.length + ((pool.drop acc.length).take
              (min 50 (max - (acc.length : Int))).toNat).length))
            (callIdx + 1)
            (by simp [poolPos_poolTok, List.length_append])
            (by simp only [List.length_append]; omega)
            (by simp only [List.length_append]; omega)
          simp only [List.length_append] at hrec
          rw [hrec, if_pos (by omega)]
        · rw [if_neg hnp]
          simp only [tokenFalsy, if_true]
          simp only [List.length_append]
          omega
    · rw [if_neg hguard]
      unfold searchLoop
      rw [if_neg hguard]

/-- Claim C3: for every positive `maxResults` and every pool of available
ids, when every page call succeeds and each page serves exactly the
requested number of ids up to what remains available, the sequence
returned by `search_videos_by_genre` has length
`min maxResults (total ids available)`. -/
theorem c3_successful_pagination_length (pool : List String)
    (maxResults : Int) (fuel : Nat) (hmax : 0 < maxResults)
    (hfuel : pool.length < fuel) :
    (search_videos_by_genre (poolSearch pool) maxResults fuel).1.length =
      min maxResults.toNat pool.length := by
  have h := searchLoop_poolSearch_length pool maxResults fuel [] none 0
    rfl (by simp) (by simpa using hfuel)
  rw [search_videos_by_genre, h, if_pos (by simpa using hmax)]

/-- Witness for C3: a pool of three ids with `maxResults = 2` yields
exactly two ids. -/
theorem c3_successful_pagination_length_witness :
    (search_videos_by_genre (poolSearch ["a", "b", "c"]) 2 10).1.length =
      min (2 : Int).toNat 3 := by
  have h := c3_successful_pagination_length ["a", "b", "c"] 2 10
    (by decide) (by decide)
  simpa using h

end YTCollector

namespace YTCollector

/-! ## Detail enricher (`get_video_details`, lines 101-165)

The details collaborator is an oracle indexed by the batch number (one call
is issued per batch, in order).  A call either raises (`Except.error`),
returns a response without an "items" key (`Except.ok none`), or returns
the response's item list (`Except.ok (some items)`).  An item is the
loosely-shaped API record restricted to the fields the code reads; the
fields the code reads with `.get(..., default)` are optional.  The ISO-8601
duration rendering `str(isodate.parse_duration(...))` is an external pure
collaborator, passed as `fmt`.  The effects the claims speak about — the
details call per batch and the fixed `time.sleep(0.1)` delay — are reified
as a `DetailEvent` trace. -/

/-- The "snippet" part of a details item.  `tags` is read with
`item["snippet"].get("tags", [])`, hence optional. -/
structure Snippet where
  title : String
  description : String
  channelTitle : String
  tags : Option (List String)
  categoryId : String
  publishedAt : String

/-- One item of a details-batch response.  `duration` is the raw ISO-8601
duration string of `contentDetails`; `viewCount` and `commentCount` are the
optional statistics fields read with `.get(..., 0)`. -/
structure VItem where
  id : String
  snippet : Snippet
  duration : String
  viewCount : Option Nat
  commentCount : Option Nat

/-- The enriched output record, one per details item, with the fields of
the CSV row in order (lines 128-149). -/
structure VideoRecord where
  videoURL : String
  title : String
  description : String
  channelTitle : String
  keywordTags : String
  categoryId : String
  publishedAt : String
  duration : String
  viewCount : Nat
  commentCount : Nat
  captionsAvailable : Bool
  captionText : String

/-- Effects of the enrichment loop: one details call per batch and the
fixed short `time.sleep(0.1)` delay. -/
inductive DetailEvent where
  | detailsCall : List String → DetailEvent
  | sleep : DetailEvent
deriving BEq, DecidableEq

/-- Assembly of one `VideoRecord` from a details item (lines 122-149):
fetch captions for the item's id, build the URL, default a missing tag list
to `[]` (joined with commas), default missing view/comment counts to 0, and
blank the caption text when captions are unavailable. -/
def mkRecord (fmt : String → String) (captions : String → Bool × String)
    (item : VItem) : VideoRecord :=
  let c := captions item.id
  { videoURL := "https://www.youtube.com/watch?v=" ++ item.id
    title := item.snippet.title
    description := item.snippet.description
    channelTitle := item.snippet.channelTitle
    keywordTags := String.intercalate "," (item.snippet.tags.getD [])
    categoryId := item.snippet.categoryId
    publishedAt := item.snippet.publishedAt
    duration := fmt item.duration
    viewCount := item.viewCount.getD 0
    commentCount := item.commentCount.getD 0
    captionsAvailable := c.1
    captionText := if c.1 then c.2 else "" }

/-- The batch partition `video_ids[i : i + 50]` for
`i in range(0, len(video_ids), 50)` (lines 112-113): consecutive chunks of
at most 50 ids. -/
def chunks50 {α : Type} : List α → List (List α)
  | [] => []
  | a :: l => (a :: l).take 50 :: chunks50 ((a :: l).drop 50)
termination_by l => l.length
decreasing_by
  simp only [List.length_drop, List.length_cons]
  omega

theorem chunks50_nil {α : Type} : chunks50 ([] : List α) = [] := by
  unfold chunks50
  rfl

theorem chunks50_cons {α : Type} (a : α) (l : List α) :
    chunks50 (a :: l) =
      (a :: l).take 50 :: chunks50 ((a :: l).drop 50) := by
  rw [chunks50]

/-- The per-batch loop of `get_video_details` (lines 112-158), over the
already-partitioned batches, carrying the batch index `idx`.  Per batch:
issue the details call; on an exception, log and `continue` to the next
batch (skipping the delay); otherwise append one `mkRecord` per response
item (none if the response lacks "items") and `time.sleep(0.1)` before the
next batch. -/
def processBatches (fmt : String → String) (captions : String → Bool × String)
    (details : Nat → List String → Except Unit (Option (List VItem))) :
    Nat → List (List String) → List VideoRecord × List DetailEvent
  | _, [] => ([], [])
  | idx, b :: bs =>
    let rest := processBatches fmt captions details (idx + 1) bs
    match details idx b with
    | Except.error _ => (rest.1, DetailEvent.detailsCall b :: rest.2)
    | Except.ok none =>
      (rest.1, DetailEvent.detailsCall b :: DetailEvent.sleep :: rest.2)
    | Except.ok (some items) =>
      (items.map (mkRecord fmt captions) ++ rest.1,
        DetailEvent.detailsCall b :: DetailEvent.sleep :: rest.2)

/-- `get_video_details` (lines 101-165): partition the ids into batches of
at most 50 and run the per-batch loop, enriching each response item through
`get_video_captions` against the transcript collaborator `listT`. -/
def get_video_details (fmt : String → String)
    (listT : String → Except Unit TranscriptList)
    (details : Nat → List String → Except Unit (Option (List VItem)))
    (ids : List String) : List VideoRecord × List DetailEvent :=
  processBatches fmt (get_video_captions listT) details 0 (chunks50 ids)

/-- Generic discriminator: did an `Except` computation succeed? -/
def exceptOk {ε α : Type} : Except ε α → Bool
  | Except.ok _ => true
  | Except.error _ => false

/-- Discriminator for the delay event. -/
def isSleep : DetailEvent → Bool
  | DetailEvent.sleep => true
  | DetailEvent.detailsCall _ => false

/-- The delay count of the enrichment trace equals the number of batches
whose details call succeeded (batches enumerated with their call index):
the `continue` in the batch `except` handler jumps past `time.sleep(0.1)`,
so a failed call contributes no delay. -/
theorem processBatches_sleep_count (fmt : String → String)
    (captions : String → Bool × String)
    (details : Nat → List String → Except Unit (Option (List VItem))) :
    ∀ (B : List (List String)) (idx : Nat),
      ((processBatches fmt captions details idx B).2.countP isSleep) =
        ((List.enumFrom idx B).countP
          (fun p => exceptOk (details p.1 p.2))) := by
  intro B
  induction B with
  | nil => intro idx; rfl
  | cons b bs ih =>
    intro idx
    simp only [processBatches]
    cases hd : details idx b with
    | error e =>
      simp [List.enumFrom, List.countP_cons, hd, exceptOk, isSleep, ih (idx + 1)]
    | ok o =>
      cases o with
      | none =>
        simp [List.enumFrom, List.countP_cons, hd, exceptOk, isSleep,
          ih (idx + 1)]
      | some items =>
        simp [List.enumFrom, List.countP_cons, hd, exceptOk, isSleep,
          ih (idx + 1)]

/-- Claim C1 counterexample: on the input list `["a"]` (one batch) with a
details collaborator whose call fails, the trace of `get_video_details`
contains no delay at all, refuting "a fixed short delay effect is emitted
after each batch, including after a batch whose details call failed". -/
theorem c1_delay_counterexample :
    ¬ (((get_video_details id (fun _ => Except.error ())
          (fun _ _ => Except.error ()) ["a"]).2.countP isSleep) =
        (chunks50 ["a"]).length) := by
  have hch : chunks50 ["a"] = [["a"]] := by
    rw [chunks50_cons]
    simp [chunks50_nil]
  simp [get_video_details, hch, processBatches, isSleep]

/-- Claim C1 as amended: for every input list and every pattern of
per-batch success or failure, the number of emitted delay effects equals
the number of batches whose details call succeeded — the delay follows
each successful batch, while the `continue` in the failure handler skips
the delay after a failed batch. -/
theorem c1_amended_delay_after_successful_batches (fmt : String → String)
    (listT : String → Except Unit TranscriptList)
    (details : Nat → List String → Except Unit (Option (List VItem)))
    (ids : List String) :
    ((get_video_details fmt listT details ids).2.countP isSleep) =
      ((List.enumFrom 0 (chunks50 ids)).countP
        (fun p => exceptOk (details p.1 p.2))) :=
  processBatches_sleep_count fmt (get_video_captions listT) details
    (chunks50 ids) 0

/-- Claim C8: in the record assembled by `get_video_details` for a details
item, a missing tag list defaults to the empty list (joined to the empty
string), a missing view count to 0, and a missing comment count to 0. -/
theorem c8_missing_field_defaults (fmt : String → String)
    (listT : String → Except Unit TranscriptList) (item : VItem) :
    (item.snippet.tags = none →
      (mkRecord fmt (get_video_captions listT) item).keywordTags = "") ∧
    (item.viewCount = none →
      (mkRecord fmt (get_video_captions listT) item).viewCount = 0) ∧
    (item.commentCount = none →
      (mkRecord fmt (get_video_captions listT) item).commentCount = 0) := by
  refine ⟨?_, ?_, ?_⟩ <;> intro h <;>
    simp [mkRecord, h, String.intercalate]

/-- Witness for C8 at a concrete item omitting all three optional
fields. -/
theorem c8_missing_field_defaults_witness :
    (mkRecord id (get_video_captions (fun _ => Except.error ()))
        ⟨"v", ⟨"t", "d", "c", none, "10", "2020"⟩, "PT1M", none, none⟩
      ).keywordTags = "" ∧
    (mkRecord id (get_video_captions (fun _ => Except.error ()))
        ⟨"v", ⟨"t", "d", "c", none, "10", "2020"⟩, "PT1M", none, none⟩
      ).viewCount = 0 ∧
    (mkRecord id (get_video_captions (fun _ => Except.error ()))
        ⟨"v", ⟨"t", "d", "c", none, "10", "2020"⟩, "PT1M", none, none⟩
      ).commentCount = 0 :=
  ⟨(c8_missing_field_defaults id (fun _ => Except.error ()) _).1 rfl,
    (c8_missing_field_defaults id (fun _ => Except.error ()) _).2.1 rfl,
    (c8_missing_field_defaults id (fun _ => Except.error ()) _).2.2 rfl⟩

/-- The transcript collaborator with transcript listing forced to fail for
one video id `v` (a transcript-fetch failure for that id). -/
def failTranscriptsAt (listT : String → Except Unit TranscriptList)
    (v : String) : String → Except Unit TranscriptList :=
  fun i => if i = v then Except.error () else listT i

/-- The length of the enriched record list does not depend on the caption
function at all: captions only fill fields of each record. -/
theorem processBatches_length_captions_indep (fmt : String → String)
    (c1 c2 : String → Bool × String)
    (details : Nat → List String → Except Unit (Option (List VItem))) :
    ∀ (B : List (List String)) (idx : Nat),
      (processBatches fmt c1 details idx B).1.length =
        (processBatches fmt c2 details idx B).1.length := by
  intro B
  induction B with
  | nil => intro idx; rfl
  | cons b bs ih =>
    intro idx
    simp only [processBatches]
    cases hd : details idx b with
    | error e => simpa using ih (idx + 1)
    | ok o =>
      cases o with
      | none => simpa using ih (idx + 1)
      | some items => simp [ih (idx + 1)]

/-- Claim C7: a transcript-fetch failure for one id `v` never shortens the
enriched record list — the run against the collaborator failing at `v` has
exactly as many records as the run against the unmodified collaborator —
and every record assembled for an item with id `v` carries
`captionsAvailable = false` and `captionText = ""`. -/
theorem c7_transcript_failure_keeps_record (fmt : String → String)
    (listT : String → Except Unit TranscriptList)
    (details : Nat → List String → Except Unit (Option (List VItem)))
    (ids : List String) (v : String) :
    ((get_video_details fmt (failTranscriptsAt listT v) details ids).1.length
        = (get_video_details fmt listT details ids).1.length) ∧
    (∀ item : VItem, item.id = v →
      (mkRecord fmt (get_video_captions (failTranscriptsAt listT v))
          item).captionsAvailable = false ∧
      (mkRecord fmt (get_video_captions (failTranscriptsAt listT v))
          item).captionText = "") := by
  constructor
  · exact processBatches_length_captions_indep fmt _ _ details
      (chunks50 ids) 0
  · intro item hid
    have hc : get_video_captions (failTranscriptsAt listT v) item.id =
        (false, "") := by
      simp [get_video_captions, failTranscriptsAt, hid]
    constructor <;> simp [mkRecord, hc]

/-- When every details call from batch index `idx` on succeeds and returns
one item per id of the batch, the loop yields one record per id of every
batch. -/
theorem processBatches_ok_from (fmt : String → String)
    (captions : String → Bool × String) (itemOf : String → VItem)
    (d : Nat → List String → Except Unit (Option (List VItem))) :
    ∀ (B : List (List String)) (idx : Nat),
      (∀ i b, idx ≤ i → d i b = Except.ok (some (b.map itemOf))) →
      (processBatches fmt captions d idx B).1 =
        B.flatMap (fun b => (b.map itemOf).map (mkRecord fmt captions)) := by
  intro B
  induction B with
  | nil => intro idx _; rfl
  | cons b bs ih =>
    intro idx hd
    simp only [processBatches, hd idx b le_rfl]
    rw [ih (idx + 1) (fun i bb hi => hd i bb (by omega))]
    rfl

/-- When exactly the call of batch index `k` fails and every other call
returns one item per id, the loop starting at `idx ≤ k` yields the records
of every batch except the one at position `k - idx`: the failed batch is
skipped whole and all later batches are still processed. -/
theorem processBatches_one_bad (fmt : String → String)
    (captions : String → Bool × String) (itemOf : String → VItem) (k : Nat)
    (d : Nat → List String → Except Unit (Option (List VItem)))
    (hgood : ∀ i b, i ≠ k → d i b = Except.ok (some (b.map itemOf)))
    (hbad : ∀ b, d k b = Except.error ()) :
    ∀ (B : List (List String)) (idx : Nat), idx ≤ k →
      (processBatches fmt captions d idx B).1 =
        (B.eraseIdx (k - idx)).flatMap
          (fun b => (b.map itemOf).map (mkRecord fmt captions)) := by
  intro B
  induction B with
  | nil => intro idx _; simp [processBatches]
  | cons b bs ih =>
    intro idx hidx
    by_cases hik : idx = k
    · subst hik
      simp only [processBatches, hbad b]
      rw [processBatches_ok_from fmt captions itemOf d bs (idx + 1)
        (fun i bb hi => hgood i bb (by omega))]
      simp [Nat.sub_self]
    · have hlt : idx < k := lt_of_le_of_ne hidx hik
      simp only [processBatches, hgood idx b hik]
      rw [ih (idx + 1) (by omega)]
      have hdec : k - idx = (k - (idx + 1)) + 1 := by omega
      rw [hdec, List.eraseIdx_cons_succ, List.flatMap_cons]

/-- Removing the element at index `k` from the outer list removes exactly
its contribution from the length of the flattened list. -/
theorem flatMap_eraseIdx_length {α β : Type} (f : α → List β) (B : List α)
    (k : Nat) (hk : k < B.length) :
    ((B.eraseIdx k).flatMap f).length + (f (B.get ⟨k, hk⟩)).length =
      (B.flatMap f).length := by
  rw [List.eraseIdx_eq_take_drop_succ]
  conv_rhs => rw [← List.take_append_drop k B]
  rw [List.drop_eq_getElem_cons hk]
  simp only [List.flatMap_append, List.flatMap_cons, List.length_append,
    List.get_eq_getElem]
  omega

/-- Claim C2: for every input id list, if exactly the details call of batch
`k` fails (and every successful call returns one item per id of its
batch), then the output of `get_video_details` consists of the records of
every batch except batch `k` — so every batch after the failed one is
still processed — and its length is exactly that batch's size smaller than
the output of the fully successful run on the same input. -/
theorem c2_single_batch_failure (fmt : String → String)
    (listT : String → Except Unit TranscriptList)
    (itemOf : String → VItem) (ids : List String) (k : Nat)
    (hk : k < (chunks50 ids).length) :
    (get_video_details fmt listT
        (fun i b => if i = k then Except.error ()
          else Except.ok (some (b.map itemOf))) ids).1 =
      ((chunks50 ids).eraseIdx k).flatMap
        (fun b => (b.map itemOf).map
          (mkRecord fmt (get_video_captions listT))) ∧
    (get_video_details fmt listT
        (fun i b => if i = k then Except.error ()
          else Except.ok (some (b.map itemOf))) ids).1.length +
        ((chunks50 ids).get ⟨k, hk⟩).length =
      (get_video_details fmt listT
        (fun _ b => Except.ok (some (b.map itemOf))) ids).1.length := by
  have hbadrun :
      (get_video_details fmt listT
          (fun i b => if i = k then Except.error ()
            else Except.ok (some (b.map itemOf))) ids).1 =
        ((chunks50 ids).eraseIdx k).flatMap
          (fun b => (b.map itemOf).map
            (mkRecord fmt (get_video_captions listT))) := by
    have h := processBatches_one_bad fmt (get_video_captions listT) itemOf k
      (fun i b => if i = k then Except.error ()
        else Except.ok (some (b.map itemOf)))
      (fun i b hi => by simp [hi])
      (fun b => by simp)
      (chunks50 ids) 0 (Nat.zero_le k)
    simpa [get_video_details] using h
  have hgoodrun :
      (get_video_details fmt listT
          (fun _ b => Except.ok (some (b.map itemOf))) ids).1 =
        (chunks50 ids).flatMap
          (fun b => (b.map itemOf).map
            (mkRecord fmt (get_video_captions listT))) :=
    processBatches_ok_from fmt (get_video_captions listT) itemOf _
      (chunks50 ids) 0 (fun _ _ _ => rfl)
  refine ⟨hbadrun, ?_⟩
  rw [hbadrun, hgoodrun]
  have h := flatMap_eraseIdx_length
    (fun b => (b.map itemOf).map (mkRecord fmt (get_video_captions listT)))
    (chunks50 ids) k hk
  simpa [List.length_map] using h

/-- Witness for C2: one batch, failing, yields the empty record list. -/
theorem c2_single_batch_failure_witness :
    (get_video_details id (fun _ => Except.error ())
        (fun i b => if i = 0 then Except.error ()
          else Except.ok (some (b.map
            (fun s => ⟨s, ⟨"", "", "", none, "", ""⟩, "", none, none⟩))))
        ["a"]).1 =
      ((chunks50 ["a"]).eraseIdx 0).flatMap
        (fun b => (b.map
            (fun s => ⟨s, ⟨"", "", "", none, "", ""⟩, "", none, none⟩)).map
          (mkRecord id (get_video_captions (fun _ => Except.error ())))) :=
  (c2_single_batch_failure id (fun _ => Except.error ())
    (fun s => ⟨s, ⟨"", "", "", none, "", ""⟩, "", none, none⟩) ["a"] 0
    (by rw [chunks50_cons]; simp)).1

/-- Witness for C7 at a concrete item whose id is the failing one. -/
theorem c7_transcript_failure_keeps_record_witness :
    (mkRecord id
        (get_video_captions (failTranscriptsAt (fun _ => Except.error ()) "v"))
        ⟨"v", ⟨"t", "d", "c", none, "10", "2020"⟩, "PT1M", none, none⟩
      ).captionsAvailable = false :=
  ((c7_transcript_failure_keeps_record id (fun _ => Except.error ())
      (fun _ _ => Except.ok none) ["v"] "v").2
    ⟨"v", ⟨"t", "d", "c", none, "10", "2020"⟩, "PT1M", none, none⟩ rfl).1

end YTCollector

namespace YTCollector

/-! ## Orchestrator filename sanitization (`collect_data`, lines 194-196)

`safe_genre = "".join(c for c in genre if c.isalnum() or c in (" ", "-",
"_")).strip()`.  Strings are modelled as their character lists; Python's
Unicode-aware `str.isalnum` is modelled by `Char.isAlphanum` (the claims
only concern the ASCII letter/digit classes), and `str.strip` removes
leading and trailing whitespace. -/

/-- The character predicate of the comprehension on line 195:
`c.isalnum() or c in (" ", "-", "_")`. -/
def allowedChar (c : Char) : Bool :=
  c.isAlphanum || c = ' ' || c = '-' || c = '_'

/-- Python `str.strip()`: discard leading and trailing whitespace. -/
def pyStrip (l : List Char) : List Char :=
  ((l.dropWhile Char.isWhitespace).reverse.dropWhile
    Char.isWhitespace).reverse

/-- The sanitized topic `safe_genre` of `collect_data` (lines 194-196):
keep exactly the allowed characters, then strip surrounding whitespace. -/
def safe_genre (genre : List Char) : List Char :=
  pyStrip (genre.filter allowedChar)

/-- Every character of the stripped list occurs in the original list. -/
theorem pyStrip_subset (l : List Char) : pyStrip l ⊆ l := by
  intro c hc
  simp only [pyStrip, List.mem_reverse] at hc
  have h1 := (List.dropWhile_suffix
    (l := (l.dropWhile Char.isWhitespace).reverse)
    Char.isWhitespace).subset hc
  rw [List.mem_reverse] at h1
  exact (List.dropWhile_suffix Char.isWhitespace).subset h1

/-- Claim C9: the sanitized topic used in the output filename keeps only
alphanumeric characters, spaces, hyphens and underscores (every character
of the result satisfies the allowed-character predicate, all others having
been dropped), and in particular the topic "rock/metal!" sanitizes to
"rockmetal". -/
theorem c9_sanitized_topic :
    (∀ (genre : List Char), ∀ c ∈ safe_genre genre, allowedChar c = true) ∧
    safe_genre ("rock/metal!".data) = "rockmetal".data := by
  constructor
  · intro genre c hc
    have h1 : c ∈ genre.filter allowedChar :=
      pyStrip_subset (genre.filter allowedChar) hc
    exact (List.mem_filter.mp h1).2
  · decide

/-- Witness for C9: the membership bound of the theorem applied at the
concrete topic "rock" and its character r. -/
theorem c9_sanitized_topic_witness : allowedChar 'r' = true :=
  c9_sanitized_topic.1 ("rock".data) 'r' (by decide)

end YTCollector
